import Mathlib

/-!
# SmartBin serial protocol: verified model

A shallow embedding of the line-oriented serial protocol and chunked
image-reassembly state machine of `smartbin_pyserial_protocol.py`
(class `SmartBinPySerialProtocol`), together with proofs of the
specification's testable properties.  The repository's second
reassembler variant, `BluetoothModule._process_complete_image` from
`smartbin_flutter/lib/scripts/modules/bluetooth_module.py`, is embedded
as `bt_process_complete_image` and compared with the prescribed
missing-part behavior.

Strings are modelled as `List Char`; Python `dict`s as association lists
with in-place replacement on duplicate keys; Python exceptions as
`Except PyErr`.  `base64.b64encode`/`b64decode` from the Python standard
library are modelled by `b64encode`/`b64decode` below (standard alphabet,
non-alphabet characters discarded before decoding, strict padding).
Side effects that the claims observe (sent frames, the decoded image
bytes handed to the downstream collaborator, warning logs) are modelled
as a list of `POutput` events; `PIL.Image.open` and classification are
external collaborators outside the model.
-/

namespace SmartBin

/-- Python `str.isspace`-style whitespace, the set stripped by `str.strip()`
and matched by the regex `\s`. -/
def isPySpace (c : Char) : Bool :=
  c = ' ' || c = '\t' || c = '\n' || c = '\r' || c = '\x0b' || c = '\x0c'

/-- Python `str.strip()`: drop leading and trailing whitespace. -/
def pyStrip (s : List Char) : List Char :=
  ((s.dropWhile isPySpace).reverse.dropWhile isPySpace).reverse

/-- Python `str.split(sep)` for a one-character separator. -/
def pySplit (sep : Char) : List Char → List (List Char)
  | [] => [[]]
  | c :: rest =>
    if c = sep then [] :: pySplit sep rest
    else
      match pySplit sep rest with
      | r :: rs => (c :: r) :: rs
      | [] => [[c]]

/-- Python `str.split(sep, 1)` on a string known to contain `sep`:
the part before the first separator and the part after it. -/
def splitFirst (sep : Char) (s : List Char) : List Char × List Char :=
  (s.takeWhile (fun c => decide (c ≠ sep)),
   (s.dropWhile (fun c => decide (c ≠ sep))).drop 1)

/-- Numeric value of a decimal digit string. -/
def digitsVal (s : List Char) : Nat :=
  s.foldl (fun a c => a * 10 + (c.toNat - 48)) 0

/-- Python `int(s)` on nonnegative decimal input: strip whitespace, then
require a nonempty all-digit string; anything else raises `ValueError`
(modelled as `none`).  Signs and underscore separators are not modelled;
no frame in the protocol carries them. -/
def pyInt (s : List Char) : Option Nat :=
  let t := pyStrip s
  if !t.isEmpty && t.all Char.isDigit then some (digitsVal t) else none

/-- Association-list lookup (Python `d[k]` / `k in d`). -/
def alookup {α β : Type} [DecidableEq α] : List (α × β) → α → Option β
  | [], _ => none
  | (k, v) :: m, k' => if k = k' then some v else alookup m k'

/-- Python `d[k] = v`: replace the value in place if the key is present,
otherwise append the new binding. -/
def dictInsert {α β : Type} [DecidableEq α] : List (α × β) → α → β → List (α × β)
  | [], k, v => [(k, v)]
  | (k', v') :: m, k, v =>
    if k' = k then (k, v) :: m else (k', v') :: dictInsert m k v

/-- Python `d.get(k, dflt)`. -/
def dictGetD {α β : Type} [DecidableEq α] (m : List (α × β)) (k : α) (dflt : β) : β :=
  (alookup m k).getD dflt

/-! ## Base64 (model of Python `base64.b64encode` / `b64decode`) -/

/-- The standard base64 alphabet. -/
def b64Alphabet : List Char :=
  "ABCDEFGHIJKLMNOPQRSTUVWXYZabcdefghijklmnopqrstuvwxyz0123456789+/".data

/-- Character encoding a 6-bit value. -/
def b64char (v : Nat) : Char := b64Alphabet.getD v 'A'

/-- The 6-bit value of an alphabet character, `none` outside the alphabet. -/
def b64CharVal (c : Char) : Option Nat :=
  if c ∈ b64Alphabet then some (b64Alphabet.indexOf c) else none

/-- Characters `b64decode` keeps: the alphabet and the padding character.
Python's non-strict decoder discards everything else before decoding. -/
def b64Relevant (c : Char) : Bool :=
  (b64CharVal c).isSome || decide (c = '=')

/-- Model of `base64.b64encode`: bytes to base64 text with `=` padding. -/
def b64encode : List Nat → List Char
  | [] => []
  | [b0] =>
    [b64char (b0 / 4), b64char (b0 % 4 * 16), '=', '=']
  | [b0, b1] =>
    [b64char (b0 / 4), b64char (b0 % 4 * 16 + b1 / 16), b64char (b1 % 16 * 4), '=']
  | b0 :: b1 :: b2 :: rest =>
    b64char (b0 / 4) :: b64char (b0 % 4 * 16 + b1 / 16) ::
    b64char (b1 % 16 * 4 + b2 / 64) :: b64char (b2 % 64) :: b64encode rest

/-- Decoder core on the already-filtered character list: quads of alphabet
characters, with `=`-padding allowed only in the final quad; any leftover
of 1–3 characters is the `Incorrect padding` error (`none`). -/
def b64decodeRaw : List Char → Option (List Nat)
  | [] => some []
  | c0 :: c1 :: c2 :: c3 :: rest =>
    match b64CharVal c0, b64CharVal c1 with
    | some v0, some v1 =>
      if c2 = '=' then
        if c3 = '=' ∧ rest = [] then some [v0 * 4 + v1 / 16] else none
      else
        match b64CharVal c2 with
        | some v2 =>
          if c3 = '=' then
            if rest = [] then some [v0 * 4 + v1 / 16, v1 % 16 * 16 + v2 / 4]
            else none
          else
            match b64CharVal c3 with
            | some v3 =>
              match b64decodeRaw rest with
              | some bs =>
                some ((v0 * 4 + v1 / 16) :: (v1 % 16 * 16 + v2 / 4) ::
                      (v2 % 4 * 64 + v3) :: bs)
              | none => none
            | none => none
        | none => none
    | _, _ => none
  | _ => none

/-- Model of `base64.b64decode` (non-strict): discard irrelevant characters, then
decode; raises (`none`) on bad padding or a stray `=`. -/
def b64decode (s : List Char) : Option (List Nat) :=
  b64decodeRaw (s.filter b64Relevant)

/-! ## Protocol state machine (from `smartbin_pyserial_protocol.py`) -/

/-- The mutable protocol fields of `SmartBinPySerialProtocol`. -/
structure ProtocolState where
  connected : Bool
  waiting_for_image : Bool
  image_metadata : List (List Char × List Char)
  image_parts : List (Nat × List Char)
  expected_parts : Nat
deriving DecidableEq

/-- The state set up by `__init__`. -/
def initState : ProtocolState :=
  { connected := false
    waiting_for_image := false
    image_metadata := []
    image_parts := []
    expected_parts := 0 }

/-- Observable effects of frame handling: protocol messages sent back over
the transport, the decoded image bytes handed to the collaborator, the
"missing image part i" diagnostic, warnings about unexpected frames, and
surfaced peer errors. -/
inductive POutput where
  | sent (code content : List Char)
  | decodedImage (bytes : List Nat)
  | missingPart (i : Nat)
  | warn (msg : List Char)
  | espError (content : List Char)
deriving DecidableEq

/-- A raised Python exception. -/
inductive PyErr where
  | valueError
deriving DecidableEq

deriving instance DecidableEq for Except

/-- Source `_is_protocol_message`: length at least 6, a space at index 5, and a
first-5-characters code that is a known control code or starts with
`PA`, `PX` or `ERR`. -/
def is_protocol_message (line : List Char) : Bool :=
  if line.length < 6 then false
  else
    let code := line.take 5
    if line.getD 5 ' ' ≠ ' ' then false
    else
      (code = ['R','T','C','0','0'] || code = ['R','T','C','0','1'] ||
       code = ['R','T','C','0','2'] || code = ['C','L','S','0','1'] ||
       code.take 2 = ['P','A'] || code.take 2 = ['P','X'] ||
       code.take 3 = ['E','R','R'])

/-- Source `_extract_code_content`: the first five characters and the text after
the separating space. -/
def extract_code_content (line : List Char) : List Char × List Char :=
  if line.length ≥ 6 then (line.take 5, line.drop 6) else ([], [])

/-- The result of `_process_line`'s dispatch: a protocol frame or a
free-text log line. -/
inductive Classified where
  | frame (code content : List Char)
  | logLine (line : List Char)
deriving DecidableEq

/-- The classification performed by `_process_line`. -/
def classify (line : List Char) : Classified :=
  if is_protocol_message line then
    let p := extract_code_content line
    .frame p.1 p.2
  else .logLine line

/-- The metadata-dictionary construction in `_handle_image_metadata`:
split the payload on commas, strip each item, and for items containing a
colon store `key.strip() -> value.strip()`. -/
def parseMetadata (content : List Char) : List (List Char × List Char) :=
  (pySplit ',' content).foldl
    (fun md item0 =>
      let item := pyStrip item0
      if ':' ∈ item then
        let kv := splitFirst ':' item
        dictInsert md (pyStrip kv.1) (pyStrip kv.2)
      else md)
    []

/-- Source `_handle_image_metadata` (PA000): reset the parts buffer, parse the
metadata, and read `int(metadata.get('parts', '0'))`; a non-numeric
`parts` value raises `ValueError`. -/
def handle_image_metadata (st : ProtocolState) (content : List Char) :
    Except PyErr (ProtocolState × List POutput) :=
  let md := parseMetadata content
  match pyInt (dictGetD md "parts".data "0".data) with
  | some n =>
    .ok ({ st with image_metadata := md, image_parts := [],
                   expected_parts := n, waiting_for_image := true }, [])
  | none => .error .valueError

/-- Source `_handle_image_part` (PA###, suffix nonzero): store the payload at the
given index, or warn and ignore when no image is awaited. -/
def handle_image_part (st : ProtocolState) (part_num : Nat) (content : List Char) :
    ProtocolState × List POutput :=
  if !st.waiting_for_image then
    (st, [.warn "Received image part but not expecting image".data])
  else
    ({ st with image_parts := dictInsert st.image_parts part_num content }, [])

/-- The reconstruction loop of `_process_complete_image`: starting at index
`i`, concatenate `cnt` consecutive stored parts, failing with the first
absent index. -/
def collectFrom (ps : List (Nat × List Char)) : Nat → Nat → Except Nat (List Char)
  | _, 0 => .ok []
  | i, cnt + 1 =>
    match alookup ps i with
    | some s =>
      match collectFrom ps (i + 1) cnt with
      | .ok rest => .ok (s ++ rest)
      | .error j => .error j
    | none => .error i

/-- Concatenation of `cnt` values of `f` starting at index `i`; the shape
`collectFrom` produces when every part is present. -/
def concatFrom (f : Nat → List Char) : Nat → Nat → List Char
  | _, 0 => []
  | i, cnt + 1 => f i ++ concatFrom f (i + 1) cnt

/-- Source `_process_complete_image`: concatenate parts `1..expected_parts`,
sending `ERR02` on the first missing index, otherwise base64-decode the
concatenation — with no padding repair — sending `ERR03` when decoding
raises; the `finally` block always resets the session fields.
(`PIL.Image.open` on the decoded bytes is an external collaborator and is
not modelled; the decoded bytes are surfaced as `decodedImage`.) -/
def process_complete_image (st : ProtocolState) : ProtocolState × List POutput :=
  let resetSt : ProtocolState :=
    { st with waiting_for_image := false, image_metadata := [],
              image_parts := [], expected_parts := 0 }
  match collectFrom st.image_parts 1 st.expected_parts with
  | .error i =>
    (resetSt, [.missingPart i, .sent "ERR02".data "missing_image_parts".data])
  | .ok b64 =>
    match b64decode b64 with
    | some bytes => (resetSt, [.decodedImage bytes])
    | none => (resetSt, [.sent "ERR03".data "base64_decode_failed".data])

/-- Source `BluetoothModule._process_complete_image` from
`smartbin_flutter/lib/scripts/modules/bluetooth_module.py`: the second
reassembler variant.  It joins `_image_parts.get(i, "")` for
`i in range(1, expected_parts + 1)` — substituting the empty string for
every missing index instead of failing — and base64-decodes the result;
the decoded bytes are written to `./smartbin_capture.jpg` and an
`IMAGE_RECEIVED` notification is buffered (both modelled by the
`decodedImage` event).  Any exception sends `ERR04
image_processing_failed` — the module has no missing-part error at all —
and the `finally` block resets the session fields. -/
def bt_process_complete_image (st : ProtocolState) : ProtocolState × List POutput :=
  let resetSt : ProtocolState :=
    { st with waiting_for_image := false, image_metadata := [],
              image_parts := [], expected_parts := 0 }
  let base64_data :=
    concatFrom (fun i => dictGetD st.image_parts i []) 1 st.expected_parts
  match b64decode base64_data with
  | some bytes => (resetSt, [.decodedImage bytes])
  | none => (resetSt, [.sent "ERR04".data "image_processing_failed".data])

/-- Source `_handle_final_image_part` (PX###): store the payload at the given
index and immediately attempt reassembly; warn and ignore when no image
is awaited. -/
def handle_final_image_part (st : ProtocolState) (part_num : Nat) (content : List Char) :
    ProtocolState × List POutput :=
  if !st.waiting_for_image then
    (st, [.warn "Received final image part but not expecting image".data])
  else
    process_complete_image
      { st with image_parts := dictInsert st.image_parts part_num content }

/-- Source `_handle_protocol_message`: dispatch on the frame code.  The numeric
suffix of a `PA`/`PX` code is read with `int(code[2:])`, whose failure on
a non-numeric suffix is an uncaught `ValueError`. -/
def handle_protocol_message (st : ProtocolState) (code content : List Char) :
    Except PyErr (ProtocolState × List POutput) :=
  if code = ['R','T','C','0','0'] then
    .ok (st, [.sent "RTC01".data "Laptop ready".data])
  else if code = ['R','T','C','0','2'] then
    .ok ({ st with connected := true }, [])
  else if code = ['P','A','0','0','0'] then
    handle_image_metadata st content
  else if code.take 2 = ['P','A'] then
    match pyInt (code.drop 2) with
    | some n => .ok (handle_image_part st n content)
    | none => .error .valueError
  else if code.take 2 = ['P','X'] then
    match pyInt (code.drop 2) with
    | some n => .ok (handle_final_image_part st n content)
    | none => .error .valueError
  else if code.take 3 = ['E','R','R'] then
    .ok (st, [.espError content])
  else
    .ok (st, [])

/-- Source `_process_line`: classify the line, dispatching frames to the state
machine and surfacing other lines as logs (no protocol effect). -/
def process_line (st : ProtocolState) (line : List Char) :
    Except PyErr (ProtocolState × List POutput) :=
  if is_protocol_message line then
    let p := extract_code_content line
    handle_protocol_message st p.1 p.2
  else
    .ok (st, [])

/-- Source `_reader_loop` over a finite sequence of received lines: process each
line in order; an escaped exception is caught by the loop's handler,
which logs it and `break`s, dropping all remaining lines.  The returned
flag records whether the loop was terminated by such an exception. -/
def reader_loop (st : ProtocolState) : List (List Char) → ProtocolState × List POutput × Bool
  | [] => (st, [], false)
  | l :: ls =>
    match process_line st l with
    | .ok (st', out) =>
      let r := reader_loop st' ls
      (r.1, out ++ r.2.1, r.2.2)
    | .error _ => (st, [], true)

/-- Feed a sequence of already-classified frames to
`_handle_protocol_message`, stopping at the first escaped exception. -/
def run_frames (st : ProtocolState) : List (List Char × List Char) →
    Except PyErr (ProtocolState × List POutput)
  | [] => .ok (st, [])
  | f :: fs =>
    match handle_protocol_message st f.1 f.2 with
    | .ok (st', out) =>
      match run_frames st' fs with
      | .ok (st'', outs) => .ok (st'', out ++ outs)
      | .error e => .error e
    | .error e => .error e

/-- Source `_send_message`, with the transport abstracted to an open/closed flag:
when open, write `f"{code} {content}".strip() + "\n"` and flush, returning
`true`; when closed, return `false` without raising.  The second component
is the list of lines written. -/
def send_message (isOpen : Bool) (code content : List Char) : Bool × List (List Char) :=
  if !isOpen then (false, [])
  else (true, [pyStrip (code ++ ' ' :: content) ++ ['\n']])

/-- Function `fix_base64_padding` from `Recycle Bin/decode_esp32_image_robust.py`
(a standalone decoder script, not called by the protocol's reassembly
path): remove whitespace, then append `=` until the length is a multiple
of four. -/
def fix_base64_padding (s : List Char) : List Char :=
  let t := s.filter (fun c => !isPySpace c)
  let missing := t.length % 4
  if missing ≠ 0 then t ++ List.replicate (4 - missing) '=' else t

/-- Modelled from the spec (§4.2): the spec's own wording of the Frame
condition, to be compared with the source's `_is_protocol_message` —
length at least 6, a space at index 5, and a first-5-characters code
that is exactly one of `RTC00`/`RTC01`/`RTC02`/`CLS01` or starts with
`PA`, `PX` or `ERR`. -/
def specIsFrame (line : List Char) : Bool :=
  decide (6 ≤ line.length) && decide (line.getD 5 '?' = ' ') &&
  (line.take 5 = "RTC00".data || line.take 5 = "RTC01".data ||
   line.take 5 = "RTC02".data || line.take 5 = "CLS01".data ||
   (line.take 5).take 2 = "PA".data || (line.take 5).take 2 = "PX".data ||
   (line.take 5).take 3 = "ERR".data)

/-! ## Dictionary lemmas -/

theorem alookup_dictInsert_self {α β : Type} [DecidableEq α]
    (m : List (α × β)) (k : α) (v : β) :
    alookup (dictInsert m k v) k = some v := by
  induction m with
  | nil => simp [dictInsert, alookup]
  | cons kv m ih =>
    by_cases h : kv.1 = k
    · simp [dictInsert, alookup, h]
    · simp [dictInsert, alookup, h, ih]

theorem alookup_dictInsert_ne {α β : Type} [DecidableEq α]
    (m : List (α × β)) (k j : α) (v : β) (hne : k ≠ j) :
    alookup (dictInsert m k v) j = alookup m j := by
  induction m with
  | nil => simp [dictInsert, alookup, hne]
  | cons kv m ih =>
    by_cases h : kv.1 = k
    · simp [dictInsert, alookup, h, hne]
    · simp [dictInsert, alookup, h, ih]

theorem alookup_dictInsert_isSome {α β : Type} [DecidableEq α]
    (m : List (α × β)) (k j : α) (v : β) (hk : (alookup m k).isSome = true) :
    (alookup (dictInsert m k v) j).isSome = (alookup m j).isSome := by
  by_cases h : k = j
  · subst h
    simp [alookup_dictInsert_self, hk]
  · simp [alookup_dictInsert_ne m k j v h]

/-! ## Strip / split / digit lemmas -/

theorem dropWhile_eq_self_of_none {α : Type} (p : α → Bool) (l : List α)
    (h : ∀ c ∈ l, p c = false) : l.dropWhile p = l := by
  cases l with
  | nil => rfl
  | cons c l => simp [List.dropWhile_cons, h c (by simp)]

theorem pyStrip_of_no_space (l : List Char)
    (h : ∀ c ∈ l, isPySpace c = false) : pyStrip l = l := by
  unfold pyStrip
  rw [dropWhile_eq_self_of_none _ _ h,
      dropWhile_eq_self_of_none _ _ (fun c hc => h c (List.mem_reverse.mp hc)),
      List.reverse_reverse]

theorem pySplit_single (sep : Char) (l : List Char)
    (h : ∀ c ∈ l, c ≠ sep) : pySplit sep l = [l] := by
  induction l with
  | nil => rfl
  | cons c l ih =>
    have hc : ¬c = sep := h c (by simp)
    have hrest := ih (fun d hd => h d (by simp [hd]))
    simp [pySplit, hc, hrest]

theorem isPySpace_eq_false_of_isDigit (c : Char) (h : c.isDigit = true) :
    isPySpace c = false := by
  unfold isPySpace
  revert h
  unfold Char.isDigit
  by_cases h1 : c = ' ' <;> by_cases h2 : c = '\t' <;> by_cases h3 : c = '\n' <;>
    by_cases h4 : c = '\r' <;> by_cases h5 : c = '\x0b' <;> by_cases h6 : c = '\x0c' <;>
    subst_vars <;> simp_all

theorem ne_of_isDigit (c d : Char) (h : c.isDigit = true) (hd : d.isDigit = false) :
    c ≠ d := by
  intro he
  subst he
  rw [h] at hd
  cases hd

theorem pyStrip_digits (l : List Char) (h : ∀ c ∈ l, c.isDigit = true) :
    pyStrip l = l :=
  pyStrip_of_no_space l (fun c hc => isPySpace_eq_false_of_isDigit c (h c hc))

/-! ## Metadata handling -/

theorem parseMetadata_parts (pd : List Char)
    (hdig : ∀ c ∈ pd, c.isDigit = true) :
    parseMetadata ("parts:".data ++ pd) = [("parts".data, pd)] := by
  have hsep : ∀ c ∈ "parts:".data ++ pd, c ≠ ',' := by
    intro c hc
    rcases List.mem_append.mp hc with h | h
    · fin_cases h <;> decide
    · exact ne_of_isDigit c ',' (hdig c h) (by decide)
  have hnos : ∀ c ∈ "parts:".data ++ pd, isPySpace c = false := by
    intro c hc
    rcases List.mem_append.mp hc with h | h
    · fin_cases h <;> decide
    · exact isPySpace_eq_false_of_isDigit c (hdig c h)
  have hcolon : (':' : Char) ∈ "parts:".data ++ pd := by
    apply List.mem_append.mpr
    left
    decide
  have hsplit := pySplit_single ',' _ hsep
  have hstrip := pyStrip_of_no_space _ hnos
  unfold parseMetadata
  rw [hsplit]
  simp only [List.foldl_cons, List.foldl_nil, hstrip, hcolon, if_pos]
  have htk : splitFirst ':' ("parts:".data ++ pd) = ("parts".data, pd) := by
    have hpd : ∀ c ∈ pd, decide (c ≠ ':') = true := by
      intro c hc
      simp [ne_of_isDigit c ':' (hdig c hc) (by decide)]
    simp [splitFirst, List.takeWhile, List.dropWhile, String.data]
  rw [htk]
  have hdigstrip := pyStrip_digits pd hdig
  simp [hdigstrip, pyStrip_of_no_space "parts".data (by decide), dictInsert]

theorem handle_image_metadata_parts (st : ProtocolState) (pd : List Char) (N : Nat)
    (hdig : ∀ c ∈ pd, c.isDigit = true)
    (hpd : pyInt pd = some N) :
    handle_image_metadata st ("parts:".data ++ pd) =
      .ok ({ st with image_metadata := [("parts".data, pd)], image_parts := [],
                     expected_parts := N, waiting_for_image := true }, []) := by
  unfold handle_image_metadata
  rw [parseMetadata_parts pd hdig]
  have hget : dictGetD [("parts".data, pd)] "parts".data "0".data = pd := by
    simp [dictGetD, alookup]
  simp only [hget, hpd]

/-! ## Frame-dispatch lemmas -/

theorem handle_pa_store (st : ProtocolState) (ds p : List Char) (i : Nat)
    (hw : st.waiting_for_image = true)
    (hds : pyInt ds = some i) (h0 : ds ≠ ['0','0','0']) :
    handle_protocol_message st ('P' :: 'A' :: ds) p =
      .ok ({ st with image_parts := dictInsert st.image_parts i p }, []) := by
  unfold handle_protocol_message
  rw [if_neg (by simp), if_neg (by simp), if_neg (by simp [h0]),
      if_pos (by simp [List.take])]
  simp only [List.drop, hds]
  unfold handle_image_part
  rw [hw]
  simp

theorem handle_px_step (st : ProtocolState) (ds p : List Char) (k : Nat)
    (hw : st.waiting_for_image = true)
    (hds : pyInt ds = some k) :
    handle_protocol_message st ('P' :: 'X' :: ds) p =
      .ok (process_complete_image
            { st with image_parts := dictInsert st.image_parts k p }) := by
  unfold handle_protocol_message
  rw [if_neg (by simp), if_neg (by simp), if_neg (by simp),
      if_neg (by simp [List.take]), if_pos (by simp [List.take])]
  simp only [List.drop, hds]
  unfold handle_final_image_part
  rw [hw]
  simp

theorem handle_pa_not_waiting (st : ProtocolState) (ds p : List Char) (i : Nat)
    (hw : st.waiting_for_image = false)
    (hds : pyInt ds = some i) (h0 : ds ≠ ['0','0','0']) :
    handle_protocol_message st ('P' :: 'A' :: ds) p =
      .ok (st, [.warn "Received image part but not expecting image".data]) := by
  unfold handle_protocol_message
  rw [if_neg (by simp), if_neg (by simp), if_neg (by simp [h0]),
      if_pos (by simp [List.take])]
  simp only [List.drop, hds]
  unfold handle_image_part
  rw [hw]
  simp

theorem handle_px_not_waiting (st : ProtocolState) (ds p : List Char) (k : Nat)
    (hw : st.waiting_for_image = false)
    (hds : pyInt ds = some k) :
    handle_protocol_message st ('P' :: 'X' :: ds) p =
      .ok (st, [.warn "Received final image part but not expecting image".data]) := by
  unfold handle_protocol_message
  rw [if_neg (by simp), if_neg (by simp), if_neg (by simp),
      if_neg (by simp [List.take]), if_pos (by simp [List.take])]
  simp only [List.drop, hds]
  unfold handle_final_image_part
  rw [hw]
  simp

/-! ## Reassembly-loop lemmas -/

theorem collectFrom_ok (ps : List (Nat × List Char)) (f : Nat → List Char) :
    ∀ cnt i, (∀ j, i ≤ j → j < i + cnt → alookup ps j = some (f j)) →
    collectFrom ps i cnt = .ok (concatFrom f i cnt) := by
  intro cnt
  induction cnt with
  | zero => intro i _; rfl
  | succ cnt ih =>
    intro i h
    have hi : alookup ps i = some (f i) := h i (Nat.le_refl i) (by omega)
    have hrest := ih (i + 1) (fun j hj1 hj2 => h j (by omega) (by omega))
    simp [collectFrom, hi, hrest, concatFrom]

theorem collectFrom_error (ps : List (Nat × List Char)) (i₀ : Nat)
    (hm : alookup ps i₀ = none) :
    ∀ cnt i, i ≤ i₀ → i₀ < i + cnt →
    (∀ j, i ≤ j → j < i₀ → (alookup ps j).isSome = true) →
    collectFrom ps i cnt = .error i₀ := by
  intro cnt
  induction cnt with
  | zero => intro i h1 h2 _; omega
  | succ cnt ih =>
    intro i h1 h2 hp
    by_cases hii : i = i₀
    · subst hii
      simp [collectFrom, hm]
    · have hlt : i < i₀ := by omega
      obtain ⟨s, hs⟩ := Option.isSome_iff_exists.mp (hp i (Nat.le_refl i) hlt)
      have hrest := ih (i + 1) (by omega) (by omega) (fun j hj1 hj2 => hp j (by omega) hj2)
      simp [collectFrom, hs, hrest]

theorem concatFrom_congr (f g : Nat → List Char) :
    ∀ cnt i, (∀ j, i ≤ j → j < i + cnt → f j = g j) →
    concatFrom f i cnt = concatFrom g i cnt := by
  intro cnt
  induction cnt with
  | zero => intro i _; rfl
  | succ cnt ih =>
    intro i h
    simp only [concatFrom, h i (Nat.le_refl i) (by omega),
               ih (i + 1) (fun j hj1 hj2 => h j (by omega) (by omega))]

theorem concatFrom_getD (fs : List (List Char)) :
    ∀ i, concatFrom (fun j => fs.getD (j - i) []) i fs.length =
      fs.foldr (· ++ ·) [] := by
  induction fs with
  | nil => intro i; rfl
  | cons a rest ih =>
    intro i
    have hcg : concatFrom (fun j => (a :: rest).getD (j - i) []) (i + 1) rest.length =
        concatFrom (fun j => rest.getD (j - (i + 1)) []) (i + 1) rest.length := by
      apply concatFrom_congr
      intro j hj1 hj2
      have hji : j - i = (j - (i + 1)) + 1 := by omega
      simp [hji]
    have h0 : (a :: rest).getD (i - i) [] = a := by simp [Nat.sub_self]
    simp only [List.length_cons, concatFrom, hcg, ih (i + 1), List.foldr_cons, h0]

/-! ## Fold-of-inserts lookup lemmas -/

theorem alookup_foldl_insert_not_mem (g : Nat → List Char) (ord : List Nat) :
    ∀ (m₀ : List (Nat × List Char)) (i : Nat), i ∉ ord →
    alookup (ord.foldl (fun m j => dictInsert m j (g j)) m₀) i = alookup m₀ i := by
  induction ord with
  | nil => intro m₀ i _; rfl
  | cons a ord ih =>
    intro m₀ i hi
    have hia : a ≠ i := fun h => hi (by simp [h])
    rw [List.foldl_cons, ih _ i (fun h => hi (by simp [h])),
        alookup_dictInsert_ne m₀ a i (g a) hia]

theorem alookup_foldl_insert_mem (g : Nat → List Char) (ord : List Nat) :
    ∀ (m₀ : List (Nat × List Char)) (i : Nat), ord.Nodup → i ∈ ord →
    alookup (ord.foldl (fun m j => dictInsert m j (g j)) m₀) i = some (g i) := by
  induction ord with
  | nil => intro m₀ i _ hi; cases hi
  | cons a ord ih =>
    intro m₀ i hnd hi
    rw [List.foldl_cons]
    rcases List.mem_cons.mp hi with h | h
    · subst h
      rw [alookup_foldl_insert_not_mem g ord _ i (List.nodup_cons.mp hnd).1,
          alookup_dictInsert_self]
    · exact ih _ i (List.nodup_cons.mp hnd).2 h

/-! ## Running sequences of frames -/

theorem run_frames_append (fs₁ fs₂ : List (List Char × List Char)) :
    ∀ st : ProtocolState,
    run_frames st (fs₁ ++ fs₂) =
      (match run_frames st fs₁ with
       | .ok (st', out) =>
         (match run_frames st' fs₂ with
          | .ok (st'', outs) => .ok (st'', out ++ outs)
          | .error e => .error e)
       | .error e => .error e) := by
  induction fs₁ with
  | nil =>
    intro st
    simp only [List.nil_append, run_frames]
    cases hr : run_frames st fs₂ with
    | ok r => cases r with | mk a b => simp
    | error e => rfl
  | cons f fs₁ ih =>
    intro st
    rw [List.cons_append]
    simp only [run_frames]
    cases hh : handle_protocol_message st f.1 f.2 with
    | error e => rfl
    | ok r =>
      cases r with
      | mk st₁ out₁ =>
        dsimp only
        rw [ih st₁]
        cases h1 : run_frames st₁ fs₁ with
        | error e => rfl
        | ok r2 =>
          cases r2 with
          | mk st₂ out₂ =>
            dsimp only
            cases h2 : run_frames st₂ fs₂ with
            | error e => rfl
            | ok r3 => cases r3 with | mk st₃ out₃ => simp

theorem run_pa_list (dgt : Nat → List Char) (g : Nat → List Char) (ord : List Nat) :
    ∀ st : ProtocolState, st.waiting_for_image = true →
    (∀ i ∈ ord, pyInt (dgt i) = some i ∧ dgt i ≠ ['0','0','0']) →
    run_frames st (ord.map (fun i => ('P' :: 'A' :: dgt i, g i))) =
      .ok ({ st with image_parts :=
               ord.foldl (fun m i => dictInsert m i (g i)) st.image_parts }, []) := by
  induction ord with
  | nil => intro st hw _; simp [run_frames]
  | cons a ord ih =>
    intro st hw hd
    have ha := hd a (by simp)
    simp only [List.map_cons, run_frames,
               handle_pa_store st (dgt a) (g a) a hw ha.1 ha.2]
    rw [ih { st with image_parts := dictInsert st.image_parts a (g a) } hw
          (fun i hi => hd i (by simp [hi]))]
    simp

/-! ## Base64 round-trip -/

theorem b64CharVal_b64char : ∀ v < 64, b64CharVal (b64char v) = some v := by decide

theorem b64char_ne_pad (v : Nat) (hv : v < 64) : b64char v ≠ '=' := by
  intro h
  have hc := b64CharVal_b64char v hv
  rw [h, show b64CharVal '=' = none from by decide] at hc
  exact Option.noConfusion hc

theorem b64Relevant_b64char (v : Nat) (hv : v < 64) : b64Relevant (b64char v) = true := by
  unfold b64Relevant
  rw [b64CharVal_b64char v hv]
  rfl

theorem b64Relevant_of_mem_encode : ∀ bs : List Nat, (∀ b ∈ bs, b < 256) →
    ∀ c ∈ b64encode bs, b64Relevant c = true := by
  intro bs
  induction bs using b64encode.induct with
  | case1 =>
    intro _ c hc
    cases hc
  | case2 b0 =>
    intro h c hc
    have hb0 : b0 < 256 := h b0 (by simp)
    simp only [b64encode, List.mem_cons, List.not_mem_nil, or_false] at hc
    rcases hc with rfl | rfl | rfl | rfl
    · exact b64Relevant_b64char _ (by omega)
    · exact b64Relevant_b64char _ (by omega)
    · decide
    · decide
  | case3 b0 b1 =>
    intro h c hc
    have hb0 : b0 < 256 := h b0 (by simp)
    have hb1 : b1 < 256 := h b1 (by simp)
    simp only [b64encode, List.mem_cons, List.not_mem_nil, or_false] at hc
    rcases hc with rfl | rfl | rfl | rfl
    · exact b64Relevant_b64char _ (by omega)
    · exact b64Relevant_b64char _ (by omega)
    · exact b64Relevant_b64char _ (by omega)
    · decide
  | case4 b0 b1 b2 rest ih =>
    intro h c hc
    have hb0 : b0 < 256 := h b0 (by simp)
    have hb1 : b1 < 256 := h b1 (by simp)
    have hb2 : b2 < 256 := h b2 (by simp)
    simp only [b64encode, List.mem_cons] at hc
    rcases hc with rfl | rfl | rfl | rfl | hc
    · exact b64Relevant_b64char _ (by omega)
    · exact b64Relevant_b64char _ (by omega)
    · exact b64Relevant_b64char _ (by omega)
    · exact b64Relevant_b64char _ (by omega)
    · exact ih (fun b hb => h b (by simp [hb])) c hc

theorem b64decodeRaw_b64encode : ∀ bs : List Nat, (∀ b ∈ bs, b < 256) →
    b64decodeRaw (b64encode bs) = some bs := by
  intro bs
  induction bs using b64encode.induct with
  | case1 =>
    intro _
    rfl
  | case2 b0 =>
    intro h
    have hb0 : b0 < 256 := h b0 (by simp)
    simp only [b64encode, b64decodeRaw,
               b64CharVal_b64char (b0 / 4) (by omega),
               b64CharVal_b64char (b0 % 4 * 16) (by omega)]
    simp
    omega
  | case3 b0 b1 =>
    intro h
    have hb0 : b0 < 256 := h b0 (by simp)
    have hb1 : b1 < 256 := h b1 (by simp)
    simp only [b64encode, b64decodeRaw,
               b64CharVal_b64char (b0 / 4) (by omega),
               b64CharVal_b64char (b0 % 4 * 16 + b1 / 16) (by omega),
               b64CharVal_b64char (b1 % 16 * 4) (by omega)]
    rw [if_neg (b64char_ne_pad (b1 % 16 * 4) (by omega))]
    simp
    omega
  | case4 b0 b1 b2 rest ih =>
    intro h
    have hb0 : b0 < 256 := h b0 (by simp)
    have hb1 : b1 < 256 := h b1 (by simp)
    have hb2 : b2 < 256 := h b2 (by simp)
    have hrest := ih (fun b hb => h b (by simp [hb]))
    simp only [b64encode, b64decodeRaw,
               b64CharVal_b64char (b0 / 4) (by omega),
               b64CharVal_b64char (b0 % 4 * 16 + b1 / 16) (by omega),
               b64CharVal_b64char (b1 % 16 * 4 + b2 / 64) (by omega),
               b64CharVal_b64char (b2 % 64) (by omega)]
    rw [if_neg (b64char_ne_pad (b1 % 16 * 4 + b2 / 64) (by omega)),
        if_neg (b64char_ne_pad (b2 % 64) (by omega)), hrest]
    simp
    omega

theorem b64_roundtrip (bs : List Nat) (h : ∀ b ∈ bs, b < 256) :
    b64decode (b64encode bs) = some bs := by
  unfold b64decode
  rw [List.filter_eq_self.mpr (b64Relevant_of_mem_encode bs h)]
  exact b64decodeRaw_b64encode bs h

theorem b64decodeRaw_none_of_len : ∀ s : List Char,
    (∀ c ∈ s, (b64CharVal c).isSome = true) → s.length % 4 ≠ 0 →
    b64decodeRaw s = none
  | [] => by
    intro _ h
    simp at h
  | [c0] => by
    intro _ _
    rfl
  | [c0, c1] => by
    intro _ _
    rfl
  | [c0, c1, c2] => by
    intro _ _
    rfl
  | c0 :: c1 :: c2 :: c3 :: (rest : List Char) => by
    intro hall hlen
    obtain ⟨v0, hv0⟩ := Option.isSome_iff_exists.mp (hall c0 (by simp))
    obtain ⟨v1, hv1⟩ := Option.isSome_iff_exists.mp (hall c1 (by simp))
    obtain ⟨v2, hv2⟩ := Option.isSome_iff_exists.mp (hall c2 (by simp))
    obtain ⟨v3, hv3⟩ := Option.isSome_iff_exists.mp (hall c3 (by simp))
    have hc2 : c2 ≠ '=' := by
      intro h
      rw [h, show b64CharVal '=' = none from by decide] at hv2
      exact Option.noConfusion hv2
    have hc3 : c3 ≠ '=' := by
      intro h
      rw [h, show b64CharVal '=' = none from by decide] at hv3
      exact Option.noConfusion hv3
    have hrest := b64decodeRaw_none_of_len rest
      (fun c hc => hall c (by simp [hc])) (by simp at hlen ⊢; omega)
    simp only [b64decodeRaw, hv0, hv1, hv2, hv3, if_neg hc2, if_neg hc3, hrest]

theorem b64decode_none_of_len (s : List Char)
    (hall : ∀ c ∈ s, (b64CharVal c).isSome = true) (hlen : s.length % 4 ≠ 0) :
    b64decode s = none := by
  unfold b64decode
  rw [List.filter_eq_self.mpr
       (fun c hc => by simp [b64Relevant, hall c hc])]
  exact b64decodeRaw_none_of_len s hall hlen

/-! ## C1: reassembly round-trip -/

/-- C1: for every byte string `B`, every `N ≥ 1` and every split of
`base64(B)` into `N` fragments, feeding the state machine a `PA000` frame
with metadata `parts:N`, then the `N` fragments under indices `1..N` in
any arrival order (each as a `PA<index>` frame, the last-arriving one as
a `PX<index>` frame), makes reassembly concatenate the stored fragments
in index order, base64-decode the concatenation, and hand exactly `B` to
the collaborator, after which the session is reset. -/
theorem reassembly_roundtrip_ok
    (st₀ : ProtocolState) (B : List Nat) (frags : List (List Char))
    (pd : List Char) (ord₀ : List Nat) (k : Nat) (dgt : Nat → List Char)
    (hB : ∀ b ∈ B, b < 256)
    (hjoin : frags.foldr (· ++ ·) [] = b64encode B)
    (hdig : ∀ c ∈ pd, c.isDigit = true)
    (hpd : pyInt pd = some frags.length)
    (hperm : (ord₀ ++ [k]).Perm (List.range' 1 frags.length))
    (hdgt : ∀ i ∈ ord₀ ++ [k], pyInt (dgt i) = some i) :
    run_frames st₀
      ((['P','A','0','0','0'], "parts:".data ++ pd) ::
        (ord₀.map (fun i => ('P' :: 'A' :: dgt i, frags.getD (i - 1) [])) ++
         [('P' :: 'X' :: dgt k, frags.getD (k - 1) [])])) =
      .ok ({ st₀ with waiting_for_image := false, image_metadata := [],
                      image_parts := [], expected_parts := 0 },
           [POutput.decodedImage B]) := by
  have hmem : ∀ i ∈ ord₀ ++ [k], 1 ≤ i ∧ i < 1 + frags.length := by
    intro i hi
    exact List.mem_range'_1.mp (hperm.mem_iff.mp hi)
  have hnd : (ord₀ ++ [k]).Nodup := hperm.nodup_iff.mpr (List.nodup_range' _ _)
  have hd000 : ∀ i ∈ ord₀ ++ [k], dgt i ≠ ['0','0','0'] := by
    intro i hi he
    have h1 := hdgt i hi
    rw [he, show pyInt ['0','0','0'] = some 0 from by decide] at h1
    have h2 := (hmem i hi).1
    have h3 : (0 : Nat) = i := Option.some.inj h1
    omega
  have hmeta := handle_image_metadata_parts st₀ pd frags.length hdig hpd
  have hhm : handle_protocol_message st₀ ['P','A','0','0','0'] ("parts:".data ++ pd) =
      .ok ({ st₀ with image_metadata := [("parts".data, pd)], image_parts := [],
                      expected_parts := frags.length, waiting_for_image := true }, []) := by
    unfold handle_protocol_message
    rw [if_neg (by decide), if_neg (by decide), if_pos rfl]
    exact hmeta
  simp only [run_frames, hhm]
  have hpa := run_pa_list dgt (fun i => frags.getD (i - 1) []) ord₀
    { st₀ with image_metadata := [("parts".data, pd)], image_parts := [],
               expected_parts := frags.length, waiting_for_image := true }
    rfl (fun i hi => ⟨hdgt i (by simp [hi]), hd000 i (by simp [hi])⟩)
  rw [run_frames_append, hpa]
  dsimp only
  have hpx := handle_px_step
    { st₀ with image_metadata := [("parts".data, pd)],
               image_parts := List.foldl
                 (fun m i => dictInsert m i (frags.getD (i - 1) [])) [] ord₀,
               expected_parts := frags.length, waiting_for_image := true }
    (dgt k) (frags.getD (k - 1) []) k rfl (hdgt k (by simp))
  simp only [run_frames, hpx]
  have hfold : dictInsert
      (List.foldl (fun m i => dictInsert m i (frags.getD (i - 1) [])) [] ord₀)
      k (frags.getD (k - 1) []) =
      List.foldl (fun m i => dictInsert m i (frags.getD (i - 1) [])) [] (ord₀ ++ [k]) := by
    rw [List.foldl_append]
    rfl
  rw [hfold]
  have hlook : ∀ j, 1 ≤ j → j < 1 + frags.length →
      alookup (List.foldl (fun m i => dictInsert m i (frags.getD (i - 1) [])) []
                 (ord₀ ++ [k])) j = some (frags.getD (j - 1) []) := by
    intro j h1 h2
    exact alookup_foldl_insert_mem _ (ord₀ ++ [k]) [] j hnd
      (hperm.mem_iff.mpr (List.mem_range'_1.mpr ⟨h1, h2⟩))
  have hcol := collectFrom_ok
    (List.foldl (fun m i => dictInsert m i (frags.getD (i - 1) [])) [] (ord₀ ++ [k]))
    (fun j => frags.getD (j - 1) []) frags.length 1
    (fun j hj1 hj2 => hlook j hj1 hj2)
  have hdec : b64decode (concatFrom (fun j => frags.getD (j - 1) []) 1 frags.length) =
      some B := by
    rw [concatFrom_getD frags 1, hjoin]
    exact b64_roundtrip B hB
  unfold process_complete_image
  have hcol' := hcol
  simp only [hcol, hdec]
  simp

/-- Witness for C1: two fragments of `base64(b"Hello") = "SGVsbG8="` sent
as `PA001` then `PX002` after `PA000 parts:2` reassemble to the bytes of
`"Hello"`. -/
theorem reassembly_roundtrip_ok_witness :
    run_frames initState
      ((['P','A','0','0','0'], "parts:".data ++ ['2']) ::
        (([1] : List Nat).map
           (fun i => ('P' :: 'A' :: (if i = 1 then ['0','0','1'] else ['0','0','2']),
             (["SGVs".data, "bG8=".data] : List (List Char)).getD (i - 1) [])) ++
         [('P' :: 'X' :: (if (2 : Nat) = 1 then ['0','0','1'] else ['0','0','2']),
           (["SGVs".data, "bG8=".data] : List (List Char)).getD (2 - 1) [])])) =
      .ok ({ initState with waiting_for_image := false, image_metadata := [],
                            image_parts := [], expected_parts := 0 },
           [POutput.decodedImage [72, 101, 108, 108, 111]]) :=
  reassembly_roundtrip_ok initState [72, 101, 108, 108, 111]
    ["SGVs".data, "bG8=".data] ['2'] [1] 2
    (fun i => if i = 1 then ['0','0','1'] else ['0','0','2'])
    (by decide) (by decide) (by decide) (by decide) (by decide) (by decide)

/-! ## C2: missing parts and the two reassembler variants -/

/-- The pyserial reassembler: when `_process_complete_image` of
`smartbin_pyserial_protocol.py` runs with some index in
`1..expected_parts` absent from the parts map, it stops at the smallest
missing index, produces no decoded bytes, sends an
`ERR02 missing_image_parts` frame, and resets the session (parts and
metadata cleared, awaiting false) — the behavior the specification
prescribes. -/
theorem reassembly_missing_part_fails (st : ProtocolState) (i₀ : Nat)
    (h1 : 1 ≤ i₀) (h2 : i₀ ≤ st.expected_parts)
    (hm : alookup st.image_parts i₀ = none)
    (hp : ∀ j, j < i₀ → 1 ≤ j → (alookup st.image_parts j).isSome = true) :
    process_complete_image st =
      ({ st with waiting_for_image := false, image_metadata := [],
                 image_parts := [], expected_parts := 0 },
       [POutput.missingPart i₀,
        POutput.sent "ERR02".data "missing_image_parts".data]) := by
  unfold process_complete_image
  rw [collectFrom_error st.image_parts i₀ hm st.expected_parts 1 h1 (by omega)
       (fun j hj1 hj2 => hp j hj2 hj1)]

/-- Instance of the pyserial missing-part behavior: with parts `{1, 3}`
stored and `expected_parts = 3`, reassembly fails at missing index 2 and
sends `ERR02`. -/
theorem reassembly_missing_part_fails_witness :
    process_complete_image
      { connected := false, waiting_for_image := true, image_metadata := [],
        image_parts := [(1, "SGVs".data), (3, "bG8=".data)], expected_parts := 3 } =
      ({ connected := false, waiting_for_image := false, image_metadata := [],
         image_parts := [], expected_parts := 0 },
       [POutput.missingPart 2,
        POutput.sent "ERR02".data "missing_image_parts".data]) :=
  reassembly_missing_part_fails
    { connected := false, waiting_for_image := true, image_metadata := [],
      image_parts := [(1, "SGVs".data), (3, "bG8=".data)], expected_parts := 3 }
    2 (by decide) (by decide) (by decide) (by decide)

/-- C2 (failing input, `BluetoothModule` variant): the claim's cited
`BluetoothModule._process_complete_image` does not implement the claimed
missing-part failure.  With `expected_parts = 2` and only part 1 stored
(`SGVsbG8=`), the `.get(i, "")` join silently substitutes the empty
string for the missing index 2: the gappy concatenation decodes, the
partial image bytes of `"Hello"` are produced and written out, no
missing-part ERR frame is sent at any point, and the session is reset —
against the claim's "fails at the smallest missing index, no decoded
bytes, ERR frame with a missing-part reason".  The pyserial variant
(`reassembly_missing_part_fails` above) implements the claimed behavior,
so the claim and spec state the intent and the bluetooth variant is the
slip. -/
theorem bt_missing_part_not_reported :
    bt_process_complete_image
      { connected := false, waiting_for_image := true, image_metadata := [],
        image_parts := [(1, "SGVsbG8=".data)], expected_parts := 2 } =
      ({ connected := false, waiting_for_image := false, image_metadata := [],
         image_parts := [], expected_parts := 0 },
       [POutput.decodedImage [72, 101, 108, 108, 111]]) := by
  decide

/-! ## C3: the line classifier -/

theorem getD_five_indep (l : List Char) (d d' : Char) (h : 6 ≤ l.length) :
    l.getD 5 d = l.getD 5 d' := by
  have h5 : 5 < l.length := by omega
  simp [List.getD_eq_getElem?_getD, List.getElem?_eq_getElem h5]

theorem is_protocol_eq_spec (line : List Char) :
    is_protocol_message line = specIsFrame line := by
  by_cases h6 : 6 ≤ line.length
  · have hlt : ¬ line.length < 6 := by omega
    unfold is_protocol_message specIsFrame
    rw [getD_five_indep line '?' ' ' h6,
        show "RTC00".data = ['R','T','C','0','0'] from rfl,
        show "RTC01".data = ['R','T','C','0','1'] from rfl,
        show "RTC02".data = ['R','T','C','0','2'] from rfl,
        show "CLS01".data = ['C','L','S','0','1'] from rfl,
        show "PA".data = ['P','A'] from rfl,
        show "PX".data = ['P','X'] from rfl,
        show "ERR".data = ['E','R','R'] from rfl]
    by_cases hsp : line.getD 5 ' ' = ' '
    · simp [hlt, hsp, h6]
    · simp [hlt, hsp, h6]
  · have hlt : line.length < 6 := by omega
    unfold is_protocol_message specIsFrame
    simp [hlt, h6]

/-- C3: a line is classified as a Frame exactly when it satisfies the
spec's condition (length at least 6, a space at index 5, and a first-five
code that is one of `RTC00`/`RTC01`/`RTC02`/`CLS01` or starts with `PA`,
`PX` or `ERR`); the Frame's code is exactly characters `0..4` and its
payload exactly the text after the separating space; every other line is
a LogLine. -/
theorem classify_matches_spec (line : List Char) :
    (classify line = .frame (line.take 5) (line.drop 6) ∨
     classify line = .logLine line) ∧
    (classify line = .frame (line.take 5) (line.drop 6) ↔ specIsFrame line = true) ∧
    (classify line = .logLine line ↔ specIsFrame line = false) := by
  unfold classify
  rw [is_protocol_eq_spec]
  by_cases h : specIsFrame line = true
  · have h6 : 6 ≤ line.length := by
      have h' := h
      unfold specIsFrame at h'
      simp only [Bool.and_eq_true, decide_eq_true_eq] at h'
      exact h'.1.1
    rw [if_pos h]
    unfold extract_code_content
    rw [if_pos h6]
    simp [h]
  · rw [if_neg h]
    simp only [Bool.not_eq_true] at h
    simp [h]

/-! ## C4: non-numeric `PA`/`PX` suffix crashes the reader loop -/

/-- C4 (failing input): the frame `PAxyz content` — accepted by the
classifier — makes `int(code[2:])` raise `ValueError`, which escapes
`_handle_protocol_message` and terminates the reader loop: the following
`RTC02 ok` line is never processed and the state is unchanged, so the
machine does not fail gracefully as the specification requires. -/
theorem pa_bad_suffix_crashes_reader :
    process_line initState "PAxyz content".data = .error .valueError ∧
    reader_loop initState ["PAxyz content".data, "RTC02 ok".data] =
      (initState, [], true) := by
  constructor
  · decide
  · decide

/-! ## C5: no padding repair in the reassembly path -/

/-- C5 counterexample: with `PA000 parts:1` then `PX001 SGVsbG8` (length
7, not a multiple of 4, but valid base64 bit content for `"Hello"`
ignoring padding), reassembly does not repair the padding: decoding
fails and `ERR03 base64_decode_failed` is sent, refuting the claim that
decoding succeeds after a padding-repair step. -/
theorem no_padding_repair_counterexample :
    run_frames initState
      [(['P','A','0','0','0'], "parts:1".data),
       (['P','X','0','0','1'], "SGVsbG8".data)] =
      .ok (initState, [POutput.sent "ERR03".data "base64_decode_failed".data]) := by
  decide

/-- C5 amended: the reassembler applies no padding repair — the
concatenation of the stored parts is passed to `base64.b64decode`
directly, so an all-alphabet concatenation whose length is not a
multiple of 4 fails with `ERR03`; the `=`-appending repair (which always
produces a length that is a multiple of 4) exists only in the standalone
script `fix_base64_padding`, outside the reassembly path. -/
theorem reassembly_decodes_without_repair (st : ProtocolState) (f : Nat → List Char)
    (hp : ∀ j, j < 1 + st.expected_parts → 1 ≤ j →
      alookup st.image_parts j = some (f j)) :
    process_complete_image st =
      ({ st with waiting_for_image := false, image_metadata := [],
                 image_parts := [], expected_parts := 0 },
       match b64decode (concatFrom f 1 st.expected_parts) with
       | some bytes => [POutput.decodedImage bytes]
       | none => [POutput.sent "ERR03".data "base64_decode_failed".data]) ∧
    ((∀ c ∈ concatFrom f 1 st.expected_parts, (b64CharVal c).isSome = true) →
      (concatFrom f 1 st.expected_parts).length % 4 ≠ 0 →
      (process_complete_image st).2 =
        [POutput.sent "ERR03".data "base64_decode_failed".data]) ∧
    (∀ s : List Char, (fix_base64_padding s).length % 4 = 0) := by
  have hcol := collectFrom_ok st.image_parts f st.expected_parts 1
    (fun j hj1 hj2 => hp j hj2 hj1)
  refine ⟨?_, ?_, ?_⟩
  · unfold process_complete_image
    rw [hcol]
    dsimp only
    cases hdec : b64decode (concatFrom f 1 st.expected_parts) <;> rfl
  · intro hall hlen
    unfold process_complete_image
    rw [hcol]
    dsimp only
    rw [b64decode_none_of_len _ hall hlen]
  · intro s
    unfold fix_base64_padding
    by_cases hmod : (s.filter (fun c => !isPySpace c)).length % 4 = 0
    · simp [hmod]
    · simp only [hmod, ne_eq, not_false_iff, if_pos, List.length_append,
                 List.length_replicate]
      omega

/-- Witness for the amended C5: a single stored part `SGVsbG8` (length 7)
is decoded directly and fails, producing `ERR03`. -/
theorem reassembly_decodes_without_repair_witness :
    (process_complete_image
      { connected := false, waiting_for_image := true, image_metadata := [],
        image_parts := [(1, "SGVsbG8".data)], expected_parts := 1 }).2 =
      [POutput.sent "ERR03".data "base64_decode_failed".data] :=
  (reassembly_decodes_without_repair
      { connected := false, waiting_for_image := true, image_metadata := [],
        image_parts := [(1, "SGVsbG8".data)], expected_parts := 1 }
      (fun j => "SGVsbG8".data) (by decide)).2.1 (by decide) (by decide)

/-! ## C6: any `PX` suffix triggers reassembly -/

/-- C6: while awaiting an image, a `PX` frame with any numeric suffix
`k` — equal to `expected_parts` or not — stores its payload at index `k`
and immediately attempts reassembly; the attempt is not conditioned on
`k = expected_parts`. -/
theorem px_any_suffix_triggers_reassembly (st : ProtocolState) (ds p : List Char)
    (k : Nat) (hw : st.waiting_for_image = true) (hds : pyInt ds = some k) :
    handle_protocol_message st ('P' :: 'X' :: ds) p =
      .ok (process_complete_image
            { st with image_parts := dictInsert st.image_parts k p }) :=
  handle_px_step st ds p k hw hds

/-- Witness for C6: a `PX007` frame while `expected_parts = 0` still
stores index 7 and triggers reassembly (which decodes the empty
concatenation). -/
theorem px_any_suffix_triggers_reassembly_witness :
    handle_protocol_message
      { connected := true, waiting_for_image := true, image_metadata := [],
        image_parts := [], expected_parts := 0 }
      ('P' :: 'X' :: ['0','0','7']) [] =
      .ok (process_complete_image
            { connected := true, waiting_for_image := true, image_metadata := [],
              image_parts := dictInsert [] 7 [], expected_parts := 0 }) :=
  px_any_suffix_triggers_reassembly
    { connected := true, waiting_for_image := true, image_metadata := [],
      image_parts := [], expected_parts := 0 }
    ['0','0','7'] [] 7 (by decide) (by decide)

/-! ## C7: stray part frames while not awaiting are ignored -/

/-- C7: a `PA<digits>` (digits not `000`) or `PX<digits>` frame received
while `waiting_for_image` is false is only logged as a warning: no part
is stored, no reassembly is triggered, and the state is returned
unchanged. -/
theorem stray_part_frames_ignored (st : ProtocolState) (ds p : List Char) (i : Nat)
    (hw : st.waiting_for_image = false) (hds : pyInt ds = some i)
    (h0 : ds ≠ ['0','0','0']) :
    handle_protocol_message st ('P' :: 'A' :: ds) p =
      .ok (st, [POutput.warn "Received image part but not expecting image".data]) ∧
    handle_protocol_message st ('P' :: 'X' :: ds) p =
      .ok (st, [POutput.warn "Received final image part but not expecting image".data]) :=
  ⟨handle_pa_not_waiting st ds p i hw hds h0, handle_px_not_waiting st ds p i hw hds⟩

/-- Witness for C7: `PA001` and `PX001` arriving before any `PA000` are
ignored and the initial state is unchanged. -/
theorem stray_part_frames_ignored_witness :
    handle_protocol_message initState ('P' :: 'A' :: ['0','0','1']) "abc".data =
      .ok (initState,
           [POutput.warn "Received image part but not expecting image".data]) ∧
    handle_protocol_message initState ('P' :: 'X' :: ['0','0','1']) "abc".data =
      .ok (initState,
           [POutput.warn "Received final image part but not expecting image".data]) :=
  stray_part_frames_ignored initState ['0','0','1'] "abc".data 1
    (by decide) (by decide) (by decide)

/-! ## C8: the outbound message encoder -/

theorem dropWhile_head_false {α : Type} {p : α → Bool} :
    ∀ (m : List α) (c : α) (t : List α), m.dropWhile p = c :: t → p c = false := by
  intro m
  induction m with
  | nil =>
    intro c t h
    cases h
  | cons a m ih =>
    intro c t h
    by_cases hpa : p a = true
    · rw [List.dropWhile_cons, if_pos hpa] at h
      exact ih c t h
    · rw [List.dropWhile_cons, if_neg hpa] at h
      cases h
      simpa using hpa

theorem pyStrip_append_space (l : List Char) : pyStrip (l ++ [' ']) = pyStrip l := by
  unfold pyStrip
  cases hd : l.dropWhile isPySpace with
  | nil =>
    rw [List.dropWhile_append, hd]
    rfl
  | cons c t =>
    rw [List.dropWhile_append, hd]
    simp only [List.isEmpty_cons, Bool.false_eq_true, if_false]
    rw [show ((c :: t) ++ [' ']).reverse = ' ' :: (c :: t).reverse from by simp]
    rw [List.dropWhile_cons, if_pos (by decide)]

theorem pyStrip_getLast_not_space (l : List Char) :
    (pyStrip l).getLast?.all (fun c => !isPySpace c) = true := by
  unfold pyStrip
  rw [List.getLast?_reverse]
  cases hh : ((l.dropWhile isPySpace).reverse.dropWhile isPySpace) with
  | nil => rfl
  | cons c t =>
    have hpc := dropWhile_head_false _ c t hh
    simp [hh, hpc]

/-- C8: `send` writes exactly `f"{code} {payload}".strip()` followed by a
newline — in particular an empty payload leaves no trailing space, since
the stripped code never ends in whitespace — and returns `false` without
raising when the transport is not open, for every input. -/
theorem send_message_spec (code payload : List Char) :
    send_message false code payload = (false, []) ∧
    send_message true code payload =
      (true, [pyStrip (code ++ ' ' :: payload) ++ ['\n']]) ∧
    send_message true code [] = (true, [pyStrip code ++ ['\n']]) ∧
    (pyStrip code).getLast?.all (fun c => !isPySpace c) = true := by
  refine ⟨rfl, rfl, ?_, pyStrip_getLast_not_space code⟩
  show (true, [pyStrip (code ++ [' ']) ++ ['\n']]) = (true, [pyStrip code ++ ['\n']])
  rw [pyStrip_append_space]

/-! ## C9: metadata without a `parts` key -/

/-- C9: a `PA000` frame whose payload yields no `parts` key does not make
the metadata handler fail — `expected_parts` defaults to `int('0') = 0`
and `waiting_for_image` is still set — and a subsequent `PX` frame
triggers reassembly over the empty range `1..0`, i.e. a successful
base64-decode of the empty string, with no missing-metadata error. -/
theorem missing_parts_key_defaults_zero (st : ProtocolState) (md ds p : List Char)
    (j : Nat) (hmd : alookup (parseMetadata md) "parts".data = none)
    (hds : pyInt ds = some j) :
    handle_image_metadata st md =
      .ok ({ st with image_metadata := parseMetadata md, image_parts := [],
                     expected_parts := 0, waiting_for_image := true }, []) ∧
    handle_protocol_message
      { st with image_metadata := parseMetadata md, image_parts := [],
                expected_parts := 0, waiting_for_image := true }
      ('P' :: 'X' :: ds) p =
      .ok ({ st with waiting_for_image := false, image_metadata := [],
                     image_parts := [], expected_parts := 0 },
           [POutput.decodedImage []]) := by
  constructor
  · unfold handle_image_metadata
    dsimp only
    rw [show dictGetD (parseMetadata md) "parts".data "0".data = "0".data from by
          unfold dictGetD
          rw [hmd]
          rfl,
        show pyInt "0".data = some 0 from by decide]
  · rw [handle_px_step _ ds p j rfl hds]
    rfl

/-- Witness for C9: metadata `type:image` (no `parts` key) then `PX001`
with an empty payload decodes the empty string. -/
theorem missing_parts_key_defaults_zero_witness :
    handle_image_metadata initState "type:image".data =
      .ok ({ initState with image_metadata := parseMetadata "type:image".data,
                            image_parts := [], expected_parts := 0,
                            waiting_for_image := true }, []) ∧
    handle_protocol_message
      { initState with image_metadata := parseMetadata "type:image".data,
                       image_parts := [], expected_parts := 0,
                       waiting_for_image := true }
      ('P' :: 'X' :: ['0','0','1']) [] =
      .ok ({ initState with waiting_for_image := false, image_metadata := [],
                            image_parts := [], expected_parts := 0 },
           [POutput.decodedImage []]) :=
  missing_parts_key_defaults_zero initState "type:image".data ['0','0','1'] [] 1
    (by decide) (by decide)

/-! ## C10: duplicate part indices -/

/-- C10 counterexample: after `PA000 parts:2`, `PA001 A` and the
duplicate-index final frame `PX001 B`, the triggered reassembly resets
the session, so the resulting parts map is empty — it does not hold the
later payload `B` at index 1 as the claim states. -/
theorem duplicate_px_clears_map_counterexample :
    run_frames initState
      [(['P','A','0','0','0'], "parts:2".data),
       (['P','A','0','0','1'], "A".data),
       (['P','X','0','0','1'], "B".data)] =
      .ok (initState,
           [POutput.missingPart 2,
            POutput.sent "ERR02".data "missing_image_parts".data]) ∧
    alookup initState.image_parts 1 = none := by
  constructor
  · decide
  · decide

/-- C10 amended: a duplicate part index overwrites the earlier payload
(last-write-wins) and leaves the stored-index set unchanged; after a
duplicate `PA` frame the session's map holds exactly the later payload
at that index, while a duplicate `PX` frame's overwritten map is the one
consumed by the immediately-triggered reassembly, whose completion then
resets the session. -/
theorem duplicate_part_last_write_wins (st : ProtocolState) (ds p₁ p₂ : List Char)
    (i : Nat) (hw : st.waiting_for_image = true)
    (hds : pyInt ds = some i) (h0 : ds ≠ ['0','0','0'])
    (hstored : alookup st.image_parts i = some p₁) :
    handle_protocol_message st ('P' :: 'A' :: ds) p₂ =
      .ok ({ st with image_parts := dictInsert st.image_parts i p₂ }, []) ∧
    alookup (dictInsert st.image_parts i p₂) i = some p₂ ∧
    (∀ j, (alookup (dictInsert st.image_parts i p₂) j).isSome =
      (alookup st.image_parts j).isSome) ∧
    handle_protocol_message st ('P' :: 'X' :: ds) p₂ =
      .ok (process_complete_image
            { st with image_parts := dictInsert st.image_parts i p₂ }) :=
  ⟨handle_pa_store st ds p₂ i hw hds h0,
   alookup_dictInsert_self _ i p₂,
   fun j => alookup_dictInsert_isSome _ i j p₂ (by simp [hstored]),
   handle_px_step st ds p₂ i hw hds⟩

/-- Witness for the amended C10: index 1 holds `A`, a duplicate frame
carries `B`; the overwritten map holds `B` at index 1 with the same
stored-index set. -/
theorem duplicate_part_last_write_wins_witness :
    handle_protocol_message
      { connected := false, waiting_for_image := true, image_metadata := [],
        image_parts := [(1, "A".data)], expected_parts := 2 }
      ('P' :: 'A' :: ['0','0','1']) "B".data =
      .ok ({ connected := false, waiting_for_image := true, image_metadata := [],
             image_parts := dictInsert [(1, "A".data)] 1 "B".data,
             expected_parts := 2 }, []) ∧
    alookup (dictInsert [(1, "A".data)] 1 "B".data) 1 = some "B".data ∧
    (∀ j, (alookup (dictInsert [(1, "A".data)] 1 "B".data) j).isSome =
      (alookup [(1, "A".data)] j).isSome) ∧
    handle_protocol_message
      { connected := false, waiting_for_image := true, image_metadata := [],
        image_parts := [(1, "A".data)], expected_parts := 2 }
      ('P' :: 'X' :: ['0','0','1']) "B".data =
      .ok (process_complete_image
            { connected := false, waiting_for_image := true, image_metadata := [],
              image_parts := dictInsert [(1, "A".data)] 1 "B".data,
              expected_parts := 2 }) :=
  duplicate_part_last_write_wins
    { connected := false, waiting_for_image := true, image_metadata := [],
      image_parts := [(1, "A".data)], expected_parts := 2 }
    ['0','0','1'] "A".data "B".data 1 (by decide) (by decide) (by decide) (by decide)

end SmartBin
